import Mathlib

/-!
Verification development for the relAI reliability-assessment library
(source: src/lumache.py).  Feature vectors are lists of rationals; the
autoencoder, the sklearn classifiers and the numeric-library primitives
that the source treats as black boxes are passed in as function
parameters (oracles), so that every definition stays executable.
-/

/-- Feature vector: a sample is a fixed-length numeric tuple, embedded as a
list of rationals. -/
abbrev Vec := List ℚ

/-- Modelled from the spec: the ReliabilityDetector class (defined in
ReliabilityPackage.ReliabilityClasses, outside src/) owns a frozen
autoencoder, a frozen proxy classifier and the MSE threshold.  The
autoencoder together with the per-sample reconstruction-error computation
is embedded as the function field mseOf; the proxy classifier as the
boolean predicate clfPredict (true iff it predicts class 1). -/
structure ReliabilityDetector where
  mseOf : Vec → ℚ
  clfPredict : Vec → Bool
  mse_thresh : ℚ

/-- Modelled from the spec: density-mode query of a combined detector —
reliable iff the reconstruction error of the sample is at most the MSE
threshold (the method compute_density_reliability of the class is outside
src/). -/
def compute_density_reliability (RD : ReliabilityDetector) (x : Vec) : Bool :=
  decide (RD.mseOf x ≤ RD.mse_thresh)

/-- Modelled from the spec: local-fit-mode query of a combined detector —
reliable iff the proxy classifier predicts class 1 (the method
compute_localfit_reliability of the class is outside src/). -/
def compute_localfit_reliability (RD : ReliabilityDetector) (x : Vec) : Bool :=
  RD.clfPredict x

/-- Modelled from the spec: total-mode query of a combined detector —
reliable iff both the density sub-check and the local-fit sub-check agree
on reliable, a logical AND (the method compute_total_reliability of the
class is outside src/). -/
def compute_total_reliability (RD : ReliabilityDetector) (x : Vec) : Bool :=
  compute_density_reliability RD x && compute_localfit_reliability RD x

/-- Embedding of compute_dataset_reliability (src/lumache.py, lines
534-552).  The source dispatches on the mode string with an if/elif chain
and has no else branch: an unsupported mode falls through and the function
implicitly returns Python None, embedded here as Option.none. -/
def compute_dataset_reliability (RD : ReliabilityDetector) (X : List Vec)
    (mode : String) : Option (List Bool) :=
  if mode = "total" then
    some (X.map (fun x => compute_total_reliability RD x))
  else if mode = "density" then
    some (X.map (fun x => compute_density_reliability RD x))
  else if mode = "local-fit" then
    some (X.map (fun x => compute_localfit_reliability RD x))
  else
    none

/-- Modelled from the spec: the DensityPrincipleDetector class (defined in
ReliabilityPackage.ReliabilityClasses, outside src/) holds the frozen
autoencoder (embedded, with the reconstruction-error computation, as the
function field mseOf) and the MSE threshold. -/
structure DensityPrincipleDetector where
  mseOf : Vec → ℚ
  mse_thresh : ℚ

/-- Embedding of density_predictor (src/lumache.py, lines 476-491): wraps
an autoencoder and an MSE threshold into a DensityPrincipleDetector. -/
def density_predictor (mseOf : Vec → ℚ) (mse_thresh : ℚ) :
    DensityPrincipleDetector :=
  ⟨mseOf, mse_thresh⟩

/-- Modelled from the spec: the density-only detector decision — reliable
iff the reconstruction error of the sample is at most the threshold (the
query method of DensityPrincipleDetector is outside src/). -/
def density_reliability (DP : DensityPrincipleDetector) (x : Vec) : Bool :=
  decide (DP.mseOf x ≤ DP.mse_thresh)

/-- Number of samples of a dataset that the density decision of a
density-principle detector with the given threshold classifies as
reliable. -/
def reliable_count (mseOf : Vec → ℚ) (t : ℚ) (X : List Vec) : ℕ :=
  List.countP (fun x => density_reliability (density_predictor mseOf t) x) X

/-- Error message raised by create_reliability_detector for an unsupported
proxy-model tag (the Python ValueError message, which quotes the two
allowed tags). -/
def invalid_proxy_model_msg : String :=
  "Invalid value for proxy_model. Allowed values are [MLP, tree]."

/-- Label binarization inside create_reliability_detector (src/lumache.py,
lines 520-522): each synthetic-point accuracy becomes label 1 when it is
at least the accuracy threshold, else 0. -/
def binarize_accuracy (acc_syn : List ℚ) (acc_thresh : ℚ) : List ℕ :=
  acc_syn.map (fun a => if a ≥ acc_thresh then 1 else 0)

/-- Embedding of create_reliability_detector (src/lumache.py, lines
494-531).  The sklearn classifier constructors-plus-fit calls
(MLPClassifier(...).fit and DecisionTreeClassifier(...).fit, external
library primitives) are passed in as the oracles fitMLP and fitTree, each
turning the synthetic points and their binary labels into a fitted
predict function. -/
def create_reliability_detector (ae_mse : Vec → ℚ)
    (fitMLP fitTree : List Vec → List ℕ → (Vec → Bool))
    (syn_pts : List Vec) (acc_syn : List ℚ) (mse_thresh acc_thresh : ℚ)
    (proxy_model : String) : Except String ReliabilityDetector :=
  if proxy_model ∉ (["MLP", "tree"] : List String) then
    Except.error invalid_proxy_model_msg
  else
    let y_syn_pts := binarize_accuracy acc_syn acc_thresh
    let clf := if proxy_model = "MLP" then fitMLP syn_pts y_syn_pts
               else fitTree syn_pts y_syn_pts
    Except.ok ⟨ae_mse, clf, mse_thresh⟩

lemma zipWith_and_map (f g : Vec → Bool) (X : List Vec) :
    List.zipWith (· && ·) (X.map f) (X.map g)
      = X.map (fun x => f x && g x) := by
  induction X with
  | nil => rfl
  | cons x xs ih => simp [ih]

/-- C1: for every sample the total-mode decision of a combined detector is
the logical AND of the density-mode and local-fit-mode decisions, and for
every dataset the total-mode array of compute_dataset_reliability is the
elementwise AND of the density-mode and local-fit-mode arrays. -/
theorem total_reliability_is_and (RD : ReliabilityDetector) (X : List Vec) :
    (∀ x : Vec, compute_total_reliability RD x
        = (compute_density_reliability RD x && compute_localfit_reliability RD x))
    ∧ ∃ d l : List Bool,
        compute_dataset_reliability RD X "density" = some d
        ∧ compute_dataset_reliability RD X "local-fit" = some l
        ∧ compute_dataset_reliability RD X "total"
            = some (List.zipWith (· && ·) d l) := by
  refine ⟨fun x => rfl, X.map (fun x => compute_density_reliability RD x),
    X.map (fun x => compute_localfit_reliability RD x), rfl, rfl, ?_⟩
  rw [zipWith_and_map]
  rfl

/-- C5: compute_dataset_reliability applied to a mode tag outside
density/local-fit/total does not raise: it falls off the if/elif chain and
returns Python None (Option.none here), a non-error value. -/
theorem compute_dataset_reliability_invalid_mode_none
    (RD : ReliabilityDetector) (X : List Vec) (mode : String)
    (h : mode ∉ (["density", "local-fit", "total"] : List String)) :
    compute_dataset_reliability RD X mode = none := by
  have h1 : mode ≠ "density" := fun hc => h (by simp [hc])
  have h2 : mode ≠ "local-fit" := fun hc => h (by simp [hc])
  have h3 : mode ≠ "total" := fun hc => h (by simp [hc])
  simp [compute_dataset_reliability, h1, h2, h3]

/-- Concrete combined detector used to evaluate the embedding at concrete
inputs: reconstruction error is the sum of the sample, the proxy always
predicts class 1, threshold 1. -/
def RDexample : ReliabilityDetector :=
  ⟨fun v => v.sum, fun _ => true, 1⟩

theorem compute_dataset_reliability_invalid_mode_none_witness :
    "foo" ∉ (["density", "local-fit", "total"] : List String)
    ∧ compute_dataset_reliability RDexample [[1]] "foo" = none := by
  refine ⟨by decide, compute_dataset_reliability_invalid_mode_none RDexample [[1]] "foo" (by decide)⟩

/-- C7: the density decision is monotone in the MSE threshold — for
thresholds t1 < t2, the number of samples classified reliable under t1 is
at most the number classified reliable under t2. -/
theorem reliable_count_monotone (mseOf : Vec → ℚ) (t1 t2 : ℚ) (X : List Vec)
    (h : t1 < t2) :
    reliable_count mseOf t1 X ≤ reliable_count mseOf t2 X := by
  unfold reliable_count density_reliability density_predictor
  refine List.countP_mono_left (fun x _ hx => ?_)
  simp only [decide_eq_true_eq] at hx ⊢
  exact le_trans hx (le_of_lt h)

theorem reliable_count_monotone_witness :
    (0 : ℚ) < 1
    ∧ reliable_count (fun v => v.sum) 0 [[0], [2]]
        ≤ reliable_count (fun v => v.sum) 1 [[0], [2]] := by
  exact ⟨by norm_num, reliable_count_monotone (fun v => v.sum) 0 1 [[0], [2]] (by norm_num)⟩

/-- C8: create_reliability_detector with a proxy-model tag outside
MLP/tree returns the invalid-argument error naming the allowed values; the
result is the same constant for every fit oracle and every accuracy list,
so no label binarization is used and no proxy classifier is fitted. -/
theorem create_reliability_detector_invalid_proxy (ae_mse : Vec → ℚ)
    (fitMLP fitTree : List Vec → List ℕ → (Vec → Bool))
    (syn_pts : List Vec) (acc_syn : List ℚ) (mse_thresh acc_thresh : ℚ)
    (proxy_model : String)
    (h : proxy_model ∉ (["MLP", "tree"] : List String)) :
    create_reliability_detector ae_mse fitMLP fitTree syn_pts acc_syn
        mse_thresh acc_thresh proxy_model
      = Except.error invalid_proxy_model_msg := by
  simp [create_reliability_detector, h]

theorem create_reliability_detector_invalid_proxy_witness :
    "forest" ∉ (["MLP", "tree"] : List String)
    ∧ create_reliability_detector (fun v => v.sum) (fun _ _ _ => true)
        (fun _ _ _ => false) [[1]] [1] 1 1 "forest"
      = Except.error invalid_proxy_model_msg := by
  refine ⟨by decide, create_reliability_detector_invalid_proxy (fun v => v.sum)
    (fun _ _ _ => true) (fun _ _ _ => false) [[1]] [1] 1 1 "forest" (by decide)⟩

/-- Column of a dataset: the values of one feature across all samples. -/
abbrev Col := List ℚ

/-- Dataset matrix stored column-major: a list of feature columns, each of
length equal to the number of samples (rows).  This matches the
column-wise access pattern of generate_synthetic_points. -/
abbrev DataMatrix := List Col

/-- Modelled from the spec: the only-integers test on a column of observed
values (the private helper of ReliabilityPrivateFunctions is outside
src/) — true iff every value of the column is an integer. -/
def contains_only_integers (col : Col) : Bool :=
  col.all (fun q => q.den = 1)

/-- Modelled from the spec: proportional resampling of an integer column
(the private helper of ReliabilityPrivateFunctions is outside src/) —
replaces the column with values drawn from the observed ones, the random
draw given by the index oracle pick; the output has the same length as the
input. -/
def extract_values_proportionally (col : Col) (pick : ℕ → ℕ) : Col :=
  (List.range col.length).map (fun r => col.getD (pick r % col.length) 0)

/-- One noisy copy of the whole training set at noise level j
(src/lumache.py, lines 203-209): each integer column is resampled
proportionally, every other column gets additive noise; the noise draw
np.random.normal(0, j*0.1, size=n_rows) is an external primitive, embedded
as the oracle noise applied to the noise level, the column index and the
row index. -/
def gn_noisy_block (X : DataMatrix) (pick : ℕ → ℕ → ℕ → ℕ)
    (noise : ℕ → ℕ → ℕ → ℚ) (j : ℕ) : DataMatrix :=
  X.mapIdx (fun i col =>
    if contains_only_integers col then
      extract_values_proportionally col (pick j i)
    else
      List.zipWith (· + ·) col ((List.range col.length).map (noise j i)))

/-- Row-wise concatenation of two column-major matrices, the embedding of
np.concatenate along axis 0. -/
def vconcat (A B : DataMatrix) : DataMatrix :=
  List.zipWith (· ++ ·) A B

/-- The GN branch of generate_synthetic_points (src/lumache.py, lines
200-211): start from a copy of the training set and, for each noise level
j in range(2, 7), concatenate one noisy copy of the training set. -/
def gn_synthetic_points (X : DataMatrix) (pick : ℕ → ℕ → ℕ → ℕ)
    (noise : ℕ → ℕ → ℕ → ℚ) : DataMatrix :=
  (List.range' 2 5).foldl
    (fun nd j => vconcat nd (gn_noisy_block X pick noise j)) X

/-- Error message raised by generate_synthetic_points for an unsupported
method tag (the Python ValueError message, which quotes the allowed
tag). -/
def invalid_method_msg : String :=
  "Invalid value for method. Allowed values are [GN]."

/-- Embedding of generate_synthetic_points (src/lumache.py, lines
180-215).  The accuracy computation _compute_synpts_accuracy (a private
helper outside src/, closing over the predict function, the training
labels and k) is the oracle synacc; the random draws are the oracles pick
and noise.  The allowed method list of the source is exactly the tag GN,
so the guarded branch runs precisely when method is GN. -/
def generate_synthetic_points (synacc : DataMatrix → List ℚ)
    (pick : ℕ → ℕ → ℕ → ℕ) (noise : ℕ → ℕ → ℕ → ℚ)
    (X_train : DataMatrix) (method : String) :
    Except String (DataMatrix × List ℚ) :=
  if method ∉ (["GN"] : List String) then
    Except.error invalid_method_msg
  else
    let noisy_data := gn_synthetic_points X_train pick noise
    Except.ok (noisy_data, synacc noisy_data)

lemma gn_noisy_block_length (X : DataMatrix) (pick : ℕ → ℕ → ℕ → ℕ)
    (noise : ℕ → ℕ → ℕ → ℚ) (j : ℕ) :
    (gn_noisy_block X pick noise j).length = X.length := by
  simp [gn_noisy_block]

lemma gn_noisy_block_col_length (X : DataMatrix) (pick : ℕ → ℕ → ℕ → ℕ)
    (noise : ℕ → ℕ → ℕ → ℚ) (j : ℕ) (n : ℕ)
    (hn : ∀ c ∈ X, c.length = n) :
    ∀ c ∈ gn_noisy_block X pick noise j, c.length = n := by
  intro c hc
  rw [List.mem_iff_getElem] at hc
  obtain ⟨i, hi, rfl⟩ := hc
  simp only [gn_noisy_block] at hi ⊢
  rw [List.getElem_mapIdx]
  have hi' : i < X.length := by simpa using hi
  have hXi : X[i].length = n := by
    apply hn
    exact List.getElem_mem hi'
  by_cases hint : contains_only_integers X[i]
  · simp [hint, extract_values_proportionally, hXi]
  · simp [hint, hXi]

lemma vconcat_col_length (A B : DataMatrix) (m n : ℕ)
    (hA : ∀ c ∈ A, c.length = m) (hB : ∀ c ∈ B, c.length = n) :
    ∀ c ∈ vconcat A B, c.length = m + n := by
  intro c hc
  rw [List.mem_iff_getElem] at hc
  obtain ⟨i, hi, rfl⟩ := hc
  simp only [vconcat] at hi ⊢
  rw [List.getElem_zipWith]
  have hiA : i < A.length := by
    have := hi
    simp [List.length_zipWith] at this
    exact this.1
  have hiB : i < B.length := by
    have := hi
    simp [List.length_zipWith] at this
    exact this.2
  rw [List.length_append, hA _ (List.getElem_mem hiA), hB _ (List.getElem_mem hiB)]

lemma gn_fold_shape (X : DataMatrix) (pick : ℕ → ℕ → ℕ → ℕ)
    (noise : ℕ → ℕ → ℕ → ℚ) (n : ℕ) (hn : ∀ c ∈ X, c.length = n)
    (js : List ℕ) :
    ∀ (nd : DataMatrix) (m : ℕ), nd.length = X.length →
      (∀ c ∈ nd, c.length = m) →
      (js.foldl (fun nd j => vconcat nd (gn_noisy_block X pick noise j)) nd).length
          = X.length
      ∧ ∀ c ∈ js.foldl (fun nd j => vconcat nd (gn_noisy_block X pick noise j)) nd,
          c.length = m + js.length * n := by
  induction js with
  | nil =>
    intro nd m hL hc
    simpa using ⟨hL, hc⟩
  | cons j js ih =>
    intro nd m hL hc
    simp only [List.foldl_cons]
    have hL' : (vconcat nd (gn_noisy_block X pick noise j)).length = X.length := by
      rw [vconcat, List.length_zipWith, hL, gn_noisy_block_length, min_self]
    have hc' : ∀ c ∈ vconcat nd (gn_noisy_block X pick noise j), c.length = m + n :=
      vconcat_col_length _ _ _ _ hc (gn_noisy_block_col_length X pick noise j n hn)
    obtain ⟨h1, h2⟩ := ih (vconcat nd (gn_noisy_block X pick noise j)) (m + n) hL' hc'
    refine ⟨h1, fun c hmem => ?_⟩
    rw [h2 c hmem, List.length_cons]
    ring

/-- C2: for a rectangular training set with d columns of n rows each,
generate_synthetic_points with the supported Gaussian-noise method (tag
GN) succeeds and returns a synthetic matrix with exactly d columns of 6*n
rows each: the unperturbed original block plus 5 noise-level blocks. -/
theorem generate_synthetic_points_shape (synacc : DataMatrix → List ℚ)
    (pick : ℕ → ℕ → ℕ → ℕ) (noise : ℕ → ℕ → ℕ → ℚ) (X : DataMatrix)
    (d n : ℕ) (hd : X.length = d) (hn : ∀ c ∈ X, c.length = n) :
    ∃ nd acc, generate_synthetic_points synacc pick noise X "GN"
        = Except.ok (nd, acc)
      ∧ nd.length = d ∧ ∀ c ∈ nd, c.length = 6 * n := by
  refine ⟨gn_synthetic_points X pick noise, synacc (gn_synthetic_points X pick noise),
    by simp [generate_synthetic_points], ?_, ?_⟩
  · rw [← hd]
    exact (gn_fold_shape X pick noise n hn (List.range' 2 5) X n rfl hn).1
  · intro c hc
    have := (gn_fold_shape X pick noise n hn (List.range' 2 5) X n rfl hn).2 c hc
    rw [this]
    norm_num [List.range']
    ring

theorem generate_synthetic_points_shape_witness :
    ([[0, 1], [(1 : ℚ)/2, 3]] : DataMatrix).length = 2
    ∧ (∀ c ∈ ([[0, 1], [(1 : ℚ)/2, 3]] : DataMatrix), c.length = 2)
    ∧ ∃ nd acc, generate_synthetic_points (fun _ => []) (fun _ _ r => r)
        (fun j _ _ => (j : ℚ)) [[0, 1], [(1 : ℚ)/2, 3]] "GN"
          = Except.ok (nd, acc)
        ∧ nd.length = 2 ∧ ∀ c ∈ nd, c.length = 6 * 2 :=
  ⟨by decide, by decide,
    generate_synthetic_points_shape (fun _ => []) (fun _ _ r => r)
      (fun j _ _ => (j : ℚ)) [[0, 1], [(1 : ℚ)/2, 3]] 2 2 (by decide) (by decide)⟩

/-- C4 counterexample: the literal method tag Gaussian-noise is not in the
allowed list of generate_synthetic_points (which is exactly the tag GN),
so the call fails with the invalid-argument error instead of being
accepted. -/
theorem generate_synthetic_points_gaussian_noise_tag_rejected :
    generate_synthetic_points (fun _ => []) (fun _ _ r => r) (fun _ _ _ => 0)
        [[1]] "Gaussian-noise"
      = Except.error invalid_method_msg := by
  rfl

/-- C4 (amended): generate_synthetic_points accepts exactly the method tag
GN — its Gaussian-noise method — returning the synthetic points and their
accuracies; every other method tag value, including the literal string
Gaussian-noise, fails with the invalid-argument error naming the allowed
values, before any computation. -/
theorem generate_synthetic_points_method_tag (synacc : DataMatrix → List ℚ)
    (pick : ℕ → ℕ → ℕ → ℕ) (noise : ℕ → ℕ → ℕ → ℚ) (X : DataMatrix)
    (method : String) :
    (method = "GN" →
      ∃ nd acc, generate_synthetic_points synacc pick noise X method
          = Except.ok (nd, acc))
    ∧ (method ≠ "GN" →
      generate_synthetic_points synacc pick noise X method
        = Except.error invalid_method_msg) := by
  constructor
  · rintro rfl
    exact ⟨gn_synthetic_points X pick noise,
      synacc (gn_synthetic_points X pick noise),
      by simp [generate_synthetic_points]⟩
  · intro h
    simp [generate_synthetic_points, h]

theorem generate_synthetic_points_method_tag_witness :
    (∃ nd acc, generate_synthetic_points (fun _ => []) (fun _ _ r => r)
        (fun _ _ _ => 0) [[1]] "GN" = Except.ok (nd, acc))
    ∧ generate_synthetic_points (fun _ => []) (fun _ _ r => r)
        (fun _ _ _ => 0) [[1]] "XX" = Except.error invalid_method_msg :=
  ⟨(generate_synthetic_points_method_tag (fun _ => []) (fun _ _ r => r)
      (fun _ _ _ => 0) [[1]] "GN").1 rfl,
   (generate_synthetic_points_method_tag (fun _ => []) (fun _ _ r => r)
      (fun _ _ _ => 0) [[1]] "XX").2 (by decide)⟩

/-- Store of allocated numpy arrays, addressed by allocation index.  This
state-passing model makes the aliasing structure of the source explicit:
X_train.copy() and np.concatenate allocate fresh arrays, while the column
assignments of the loop write in place into an allocated array. -/
abbrev Store := List DataMatrix

/-- Read the array held at an address of the store. -/
def readA (s : Store) (a : ℕ) : DataMatrix :=
  s.getD a []

/-- Allocate a fresh array, returning the grown store and the new
address. -/
def alloc (s : Store) (m : DataMatrix) : Store × ℕ :=
  (s ++ [m], s.length)

/-- In-place assignment of column i of the array at address a, the model
of a numpy column slice assignment. -/
def writeCol (s : Store) (a i : ℕ) (c : Col) : Store :=
  s.set a ((readA s a).set i c)

/-- New value of column i in the GN column loop (src/lumache.py, lines
205-209): the proportionally resampled column when the training column
holds only integers, otherwise the current column of the copy at address t
plus the Gaussian-noise draw. -/
def gn_col_update (pick : ℕ → ℕ → ℕ → ℕ) (noise : ℕ → ℕ → ℕ → ℚ)
    (x t j : ℕ) (s : Store) (i : ℕ) : Col :=
  let xcol := (readA s x).getD i []
  if contains_only_integers xcol then
    extract_values_proportionally xcol (pick j i)
  else
    List.zipWith (· + ·) ((readA s t).getD i [])
      ((List.range xcol.length).map (noise j i))

/-- Column loop of the GN branch (src/lumache.py, lines 204-209) in the
store model: for each column index of the training set (held at address
x), assign the updated column into the allocated copy at address t, in
place. -/
def gn_inner_loop (pick : ℕ → ℕ → ℕ → ℕ) (noise : ℕ → ℕ → ℕ → ℚ)
    (x t j : ℕ) (s : Store) : Store :=
  (List.range (readA s x).length).foldl
    (fun s i => writeCol s t i (gn_col_update pick noise x t j s i)) s

/-- One iteration of the noise-level loop (src/lumache.py, lines 202-211)
in the store model: allocate a fresh copy of the training set, perturb its
columns in place, and allocate the row-wise concatenation of the current
synthetic array with it. -/
def gn_outer_step (pick : ℕ → ℕ → ℕ → ℕ) (noise : ℕ → ℕ → ℕ → ℚ)
    (x : ℕ) (p : Store × ℕ) (j : ℕ) : Store × ℕ :=
  let q := alloc p.1 (readA p.1 x)
  let s3 := gn_inner_loop pick noise x q.2 j q.1
  alloc s3 (vconcat (readA s3 p.2) (readA s3 q.2))

/-- The GN branch of generate_synthetic_points in the store model
(src/lumache.py, lines 200-211): copy the training set held at address x,
run the noise-level loop for j in range(2, 7), and return the final store
with the address of the synthetic array. -/
def generate_synthetic_points_GN_st (pick : ℕ → ℕ → ℕ → ℕ)
    (noise : ℕ → ℕ → ℕ → ℚ) (s : Store) (x : ℕ) : Store × ℕ :=
  (List.range' 2 5).foldl (gn_outer_step pick noise x)
    (alloc s (readA s x))

lemma readA_alloc_of_lt (s : Store) (m : DataMatrix) (a : ℕ)
    (h : a < s.length) : readA (alloc s m).1 a = readA s a := by
  simp only [readA, alloc]
  exact List.getD_append _ _ _ _ h

lemma alloc_fst_length (s : Store) (m : DataMatrix) :
    (alloc s m).1.length = s.length + 1 := by
  simp [alloc]

lemma writeCol_length (s : Store) (a i : ℕ) (c : Col) :
    (writeCol s a i c).length = s.length := by
  simp [writeCol]

lemma readA_writeCol_ne (s : Store) (a b i : ℕ) (c : Col) (h : b ≠ a) :
    readA (writeCol s a i c) b = readA s b := by
  simp only [readA, writeCol, List.getD_eq_getElem?_getD]
  rw [List.getElem?_set_ne (fun hc => h hc.symm)]

lemma gn_inner_loop_preserves (pick : ℕ → ℕ → ℕ → ℕ)
    (noise : ℕ → ℕ → ℕ → ℚ) (x t j : ℕ) (hxt : x ≠ t) (s : Store) :
    (gn_inner_loop pick noise x t j s).length = s.length
    ∧ readA (gn_inner_loop pick noise x t j s) x = readA s x := by
  unfold gn_inner_loop
  generalize List.range (readA s x).length = is
  induction is generalizing s with
  | nil => exact ⟨rfl, rfl⟩
  | cons i is ih =>
    simp only [List.foldl_cons]
    constructor
    · rw [(ih _).1]
      exact writeCol_length s t i _
    · rw [(ih _).2]
      exact readA_writeCol_ne s t x i _ hxt

lemma gn_outer_step_preserves (pick : ℕ → ℕ → ℕ → ℕ)
    (noise : ℕ → ℕ → ℕ → ℚ) (x j : ℕ) (p : Store × ℕ)
    (hx : x < p.1.length) :
    x < (gn_outer_step pick noise x p j).1.length
    ∧ readA (gn_outer_step pick noise x p j).1 x = readA p.1 x := by
  unfold gn_outer_step
  have hxq : x ≠ (alloc p.1 (readA p.1 x)).2 := by
    simp only [alloc]
    omega
  have hinner := gn_inner_loop_preserves pick noise x
    (alloc p.1 (readA p.1 x)).2 j hxq (alloc p.1 (readA p.1 x)).1
  have hlen : (gn_inner_loop pick noise x (alloc p.1 (readA p.1 x)).2 j
      (alloc p.1 (readA p.1 x)).1).length = p.1.length + 1 := by
    rw [hinner.1, alloc_fst_length]
  have hxlt : x < (gn_inner_loop pick noise x (alloc p.1 (readA p.1 x)).2 j
      (alloc p.1 (readA p.1 x)).1).length := by
    omega
  constructor
  · rw [alloc_fst_length]
    omega
  · rw [readA_alloc_of_lt _ _ _ hxlt, hinner.2, readA_alloc_of_lt _ _ _ hx]

/-- C9: generate_synthetic_points never mutates its training set — in the
store model of the GN branch, the array held at the training-set address
is unchanged by the whole computation, every perturbed block being built
on a freshly allocated copy. -/
theorem generate_synthetic_points_GN_preserves_X_train
    (pick : ℕ → ℕ → ℕ → ℕ) (noise : ℕ → ℕ → ℕ → ℚ) (s : Store) (x : ℕ)
    (h : x < s.length) :
    readA (generate_synthetic_points_GN_st pick noise s x).1 x = readA s x := by
  unfold generate_synthetic_points_GN_st
  have main : ∀ (js : List ℕ) (p : Store × ℕ), x < p.1.length →
      readA p.1 x = readA s x →
      x < ((js.foldl (gn_outer_step pick noise x) p)).1.length
      ∧ readA ((js.foldl (gn_outer_step pick noise x) p)).1 x = readA s x := by
    intro js
    induction js with
    | nil => exact fun p h1 h2 => ⟨h1, h2⟩
    | cons j js ih =>
      intro p h1 h2
      simp only [List.foldl_cons]
      obtain ⟨g1, g2⟩ := gn_outer_step_preserves pick noise x j p h1
      exact ih _ g1 (g2.trans h2)
  have h0 : x < (alloc s (readA s x)).1.length := by
    rw [alloc_fst_length]
    omega
  exact (main (List.range' 2 5) (alloc s (readA s x)) h0
    (readA_alloc_of_lt _ _ _ h)).2

theorem generate_synthetic_points_GN_preserves_X_train_witness :
    0 < ([[[ (1 : ℚ), 2]]] : Store).length
    ∧ readA (generate_synthetic_points_GN_st (fun _ _ r => r) (fun _ _ _ => 1)
        [[[ (1 : ℚ), 2]]] 0).1 0 = readA [[[ (1 : ℚ), 2]]] 0 :=
  ⟨by decide, generate_synthetic_points_GN_preserves_X_train
    (fun _ _ r => r) (fun _ _ _ => 1) [[[ (1 : ℚ), 2]]] 0 (by decide)⟩

/-- Per-sample reconstruction error (sklearn mean_squared_error, an
external primitive with standard semantics): the mean of the elementwise
squared differences between the sample and its reconstruction. -/
def mean_squared_error_q (a b : Vec) : ℚ :=
  (List.zipWith (fun x y => (x - y) ^ 2) a b).sum / a.length

/-- Embedding of np.percentile with its default linear-interpolation
semantics (an external primitive with standard semantics): sort the
values, take the fractional index perc/100 * (n-1) and interpolate
linearly between the two neighbouring sorted values. -/
def np_percentile (xs : List ℚ) (perc : ℚ) : ℚ :=
  let s := List.insertionSort (· ≤ ·) xs
  let q := perc / 100 * ((s.length : ℚ) - 1)
  let lo := (⌊q⌋).toNat
  let hi := (⌈q⌉).toNat
  let a := s.getD lo 0
  let b := s.getD hi 0
  a + (q - (lo : ℚ)) * (b - a)

/-- Embedding of perc_mse_threshold (src/lumache.py, lines 218-239): the
reconstruction of each validation sample by the autoencoder (the oracle
ae_recon), the per-sample MSE list, and the requested percentile of that
list. -/
def perc_mse_threshold (ae_recon : Vec → Vec) (validation_set : List Vec)
    (perc : ℚ) : ℚ :=
  np_percentile
    (validation_set.map (fun v => mean_squared_error_q v (ae_recon v))) perc

lemma getD_zero_mem (l : List ℚ) (h : l ≠ []) : l.getD 0 0 ∈ l := by
  have hl : 0 < l.length := List.length_pos.mpr h
  rw [List.getD_eq_getElem l 0 hl]
  exact List.getElem_mem hl

lemma getD_last_mem (l : List ℚ) (h : l ≠ []) :
    l.getD (l.length - 1) 0 ∈ l := by
  have hl : 0 < l.length := List.length_pos.mpr h
  have hlt : l.length - 1 < l.length := by omega
  rw [List.getD_eq_getElem l 0 hlt]
  exact List.getElem_mem hlt

lemma sorted_getD_zero_le (l : List ℚ) (hs : List.Sorted (· ≤ ·) l) :
    ∀ e ∈ l, l.getD 0 0 ≤ e := by
  cases l with
  | nil => intro e he; cases he
  | cons a t =>
    intro e he
    rcases List.mem_cons.mp he with rfl | ht
    · exact le_refl _
    · exact (List.sorted_cons.mp hs).1 e ht

lemma sorted_le_getD_last (l : List ℚ) (hs : List.Sorted (· ≤ ·) l) :
    ∀ e ∈ l, e ≤ l.getD (l.length - 1) 0 := by
  induction l with
  | nil => intro e he; cases he
  | cons a t ih =>
    intro e he
    cases t with
    | nil =>
      rcases List.mem_cons.mp he with rfl | ht
      · exact le_refl _
      · cases ht
    | cons b t2 =>
      have hlast : (a :: b :: t2).getD ((a :: b :: t2).length - 1) 0
          = (b :: t2).getD ((b :: t2).length - 1) 0 := by
        simp [List.getD]
      rw [hlast]
      rcases List.mem_cons.mp he with rfl | ht
      · exact le_trans ((List.sorted_cons.mp hs).1 _
          (getD_last_mem (b :: t2) (by simp)))
          (le_refl _)
      · exact ih (List.sorted_cons.mp hs).2 e ht

lemma np_percentile_hundred_eq (xs : List ℚ) (h : xs ≠ []) :
    np_percentile xs 100
      = (List.insertionSort (· ≤ ·) xs).getD
          ((List.insertionSort (· ≤ ·) xs).length - 1) 0 := by
  have hlen : 1 ≤ (List.insertionSort (· ≤ ·) xs).length := by
    rw [(List.perm_insertionSort (· ≤ ·) xs).length_eq]
    exact List.length_pos.mpr h
  have hcast : (100 : ℚ) / 100 * (((List.insertionSort (· ≤ ·) xs).length : ℚ) - 1)
      = (((List.insertionSort (· ≤ ·) xs).length - 1 : ℕ) : ℚ) := by
    have : (((List.insertionSort (· ≤ ·) xs).length - 1 : ℕ) : ℚ)
        = ((List.insertionSort (· ≤ ·) xs).length : ℚ) - 1 := by
      push_cast [hlen]
      ring
    rw [this]
    ring
  simp only [np_percentile, hcast, Int.floor_natCast, Int.ceil_natCast,
    Int.toNat_natCast, sub_self, zero_mul, add_zero]

lemma np_percentile_zero_eq (xs : List ℚ) :
    np_percentile xs 0 = (List.insertionSort (· ≤ ·) xs).getD 0 0 := by
  simp [np_percentile]

lemma np_percentile_hundred (xs : List ℚ) (h : xs ≠ []) :
    np_percentile xs 100 ∈ xs ∧ ∀ e ∈ xs, e ≤ np_percentile xs 100 := by
  have hperm := List.perm_insertionSort (· ≤ ·) xs
  have hsorted := List.sorted_insertionSort (· ≤ ·) xs
  have hne : List.insertionSort (· ≤ ·) xs ≠ [] := by
    intro hc
    rw [hc] at hperm
    exact h (hperm.nil_eq.symm)
  rw [np_percentile_hundred_eq xs h]
  constructor
  · exact hperm.mem_iff.mp (getD_last_mem _ hne)
  · intro e he
    exact sorted_le_getD_last _ hsorted e (hperm.mem_iff.mpr he)

lemma np_percentile_zero (xs : List ℚ) (h : xs ≠ []) :
    np_percentile xs 0 ∈ xs ∧ ∀ e ∈ xs, np_percentile xs 0 ≤ e := by
  have hperm := List.perm_insertionSort (· ≤ ·) xs
  have hsorted := List.sorted_insertionSort (· ≤ ·) xs
  have hne : List.insertionSort (· ≤ ·) xs ≠ [] := by
    intro hc
    rw [hc] at hperm
    exact h (hperm.nil_eq.symm)
  rw [np_percentile_zero_eq xs]
  constructor
  · exact hperm.mem_iff.mp (getD_zero_mem _ hne)
  · intro e he
    exact sorted_getD_zero_le _ hsorted e (hperm.mem_iff.mpr he)

/-- C6: for a non-empty validation set, perc_mse_threshold at percentile
100 is the maximum of the per-sample reconstruction errors and at
percentile 0 their minimum (each is an observed error and bounds all the
others). -/
theorem perc_mse_threshold_extremes (ae_recon : Vec → Vec)
    (validation_set : List Vec) (h : validation_set ≠ []) :
    (perc_mse_threshold ae_recon validation_set 100
        ∈ validation_set.map (fun v => mean_squared_error_q v (ae_recon v))
      ∧ ∀ e ∈ validation_set.map (fun v => mean_squared_error_q v (ae_recon v)),
          e ≤ perc_mse_threshold ae_recon validation_set 100)
    ∧ (perc_mse_threshold ae_recon validation_set 0
        ∈ validation_set.map (fun v => mean_squared_error_q v (ae_recon v))
      ∧ ∀ e ∈ validation_set.map (fun v => mean_squared_error_q v (ae_recon v)),
          perc_mse_threshold ae_recon validation_set 0 ≤ e) := by
  have hne : validation_set.map (fun v => mean_squared_error_q v (ae_recon v)) ≠ [] := by
    simpa using h
  exact ⟨np_percentile_hundred _ hne, np_percentile_zero _ hne⟩

theorem perc_mse_threshold_extremes_witness :
    ([[(1 : ℚ), 0], [2, 0]] : List Vec) ≠ []
    ∧ ((perc_mse_threshold (fun _ => [0, 0]) [[(1 : ℚ), 0], [2, 0]] 100
        ∈ ([[(1 : ℚ), 0], [2, 0]] : List Vec).map
            (fun v => mean_squared_error_q v ((fun _ => [0, 0]) v))
      ∧ ∀ e ∈ ([[(1 : ℚ), 0], [2, 0]] : List Vec).map
            (fun v => mean_squared_error_q v ((fun _ => [0, 0]) v)),
          e ≤ perc_mse_threshold (fun _ => [0, 0]) [[(1 : ℚ), 0], [2, 0]] 100)
    ∧ (perc_mse_threshold (fun _ => [0, 0]) [[(1 : ℚ), 0], [2, 0]] 0
        ∈ ([[(1 : ℚ), 0], [2, 0]] : List Vec).map
            (fun v => mean_squared_error_q v ((fun _ => [0, 0]) v))
      ∧ ∀ e ∈ ([[(1 : ℚ), 0], [2, 0]] : List Vec).map
            (fun v => mean_squared_error_q v ((fun _ => [0, 0]) v)),
          perc_mse_threshold (fun _ => [0, 0]) [[(1 : ℚ), 0], [2, 0]] 0 ≤ e)) :=
  ⟨by decide, perc_mse_threshold_extremes (fun _ => [0, 0])
    [[(1 : ℚ), 0], [2, 0]] (by decide)⟩

/-- Epoch loop of train_autoencoder (src/lumache.py, lines 75-88),
abstracted over the autoencoder state type A, the validation-set type V
and the loss-value type L.  Modelled from the spec: the per-epoch
mini-batch gradient update _train_one_epoch (a private helper outside
src/, closing over the training loader, the optimizer and the loss
function) is the oracle step applied to the epoch number and the current
model, and the mean validation loss of an epoch (torch evaluation over the
shuffled validation loader) is the oracle vloss applied to the post-epoch
model and the validation set.  Returns the final model together with the
validation-loss list accumulated in epoch order. -/
def train_epochs_loop {A V L : Type} (step : ℕ → A → A) (vloss : A → V → L)
    (validation_set : V) : ℕ → ℕ → A → A × List L
  | _, 0, ae => (ae, [])
  | e, n + 1, ae =>
    let ae1 := step e ae
    let l := vloss ae1 validation_set
    let r := train_epochs_loop step vloss validation_set (e + 1) n ae1
    (r.1, l :: r.2)

/-- Embedding of train_autoencoder (src/lumache.py, lines 42-96): runs the
epoch loop starting at epoch 0 and returns the trained model only — the
source appends the per-epoch validation losses to a local list, hands the
list to matplotlib for display, and returns just ae. -/
def train_autoencoder {A V L : Type} (step : ℕ → A → A) (vloss : A → V → L)
    (validation_set : V) (epochs : ℕ) (ae : A) : A :=
  (train_epochs_loop step vloss validation_set 0 epochs ae).1

/-- Per-epoch validation-loss list that train_autoencoder computes
internally (src/lumache.py, lines 72-87) and only plots: one mean
validation loss per epoch. -/
def train_validation_loss {A V L : Type} (step : ℕ → A → A)
    (vloss : A → V → L) (validation_set : V) (epochs : ℕ) (ae : A) : List L :=
  (train_epochs_loop step vloss validation_set 0 epochs ae).2

/-- C3 counterexample: the value returned by train_autoencoder carries no
validation-loss trajectory — two calls differing only in the validation
set return the same value even though their per-epoch validation-loss
trajectories differ, so the trajectory is not part of the return value. -/
theorem train_autoencoder_return_has_no_trajectory :
    train_autoencoder (fun _ a => a + 1) (fun _ v => v) (0 : ℕ) 1 (0 : ℕ)
      = train_autoencoder (fun _ a => a + 1) (fun _ v => v) (1 : ℕ) 1 (0 : ℕ)
    ∧ train_validation_loss (fun _ a => a + 1) (fun _ v => v) (0 : ℕ) 1 (0 : ℕ)
      ≠ train_validation_loss (fun _ a => a + 1) (fun _ v => v) (1 : ℕ) 1 (0 : ℕ) := by
  exact ⟨rfl, by decide⟩

lemma train_epochs_loop_fst_ignores_validation {A V L : Type}
    (step : ℕ → A → A) (vloss : A → V → L) (vs1 vs2 : V) :
    ∀ (n e : ℕ) (ae : A),
      (train_epochs_loop step vloss vs1 e n ae).1
        = (train_epochs_loop step vloss vs2 e n ae).1 := by
  intro n
  induction n with
  | zero => intro e ae; rfl
  | succ n ih =>
    intro e ae
    simp only [train_epochs_loop]
    exact ih (e + 1) (step e ae)

lemma train_epochs_loop_snd_length {A V L : Type} (step : ℕ → A → A)
    (vloss : A → V → L) (vs : V) :
    ∀ (n e : ℕ) (ae : A), (train_epochs_loop step vloss vs e n ae).2.length = n := by
  intro n
  induction n with
  | zero => intro e ae; rfl
  | succ n ih =>
    intro e ae
    simp only [train_epochs_loop, List.length_cons]
    rw [ih (e + 1) (step e ae)]

/-- C3 (amended): train_autoencoder returns only the trained model — the
returned value does not depend on the validation set at all — while the
per-epoch validation loss trajectory, with exactly one mean validation
loss per epoch, is computed internally and only displayed as a plot, not
returned. -/
theorem train_autoencoder_returns_model_only {A V L : Type}
    (step : ℕ → A → A) (vloss : A → V → L) (vs1 vs2 : V) (epochs : ℕ)
    (ae : A) :
    train_autoencoder step vloss vs1 epochs ae
      = train_autoencoder step vloss vs2 epochs ae
    ∧ (train_validation_loss step vloss vs1 epochs ae).length = epochs := by
  exact ⟨train_epochs_loop_fst_ignores_validation step vloss vs1 vs2 epochs 0 ae,
    train_epochs_loop_snd_length step vloss vs1 epochs 0 ae⟩

/-- Embedding of create_autoencoder (src/lumache.py, lines 24-39): the AE
class constructor (in ReliabilityPackage.ReliabilityClasses, outside
src/) is the oracle mkAE from the encoder layer-size list to a model. -/
def create_autoencoder {A : Type} (mkAE : List ℕ → A) (layer_sizes : List ℕ) : A :=
  mkAE layer_sizes

/-- Epoch loop as it is inlined a second time in get_and_train_autoencoder
(src/lumache.py, lines 140-153) — textually the same loop as in
train_autoencoder, duplicated in the source and therefore embedded as its
own definition. -/
def get_and_train_epochs_loop {A V L : Type} (step : ℕ → A → A)
    (vloss : A → V → L) (validation_set : V) : ℕ → ℕ → A → A × List L
  | _, 0, ae => (ae, [])
  | e, n + 1, ae =>
    let ae1 := step e ae
    let l := vloss ae1 validation_set
    let r := get_and_train_epochs_loop step vloss validation_set (e + 1) n ae1
    (r.1, l :: r.2)

/-- Embedding of get_and_train_autoencoder (src/lumache.py, lines 99-161):
when no layer-size list is supplied, the default sizes are derived from
the number of input features (training_set.shape[1], the parameter
train_dim); the model is built with the AE constructor and trained with
the inlined epoch loop, returning the model only. -/
def get_and_train_autoencoder {A V L : Type} (mkAE : List ℕ → A)
    (step : ℕ → A → A) (vloss : A → V → L) (train_dim : ℕ)
    (validation_set : V) (layer_sizes : Option (List ℕ)) (epochs : ℕ) : A :=
  let sizes := match layer_sizes with
    | none => [train_dim, train_dim + 4, train_dim + 8, train_dim + 16,
        train_dim + 32]
    | some ls => ls
  let ae := mkAE sizes
  (get_and_train_epochs_loop step vloss validation_set 0 epochs ae).1

lemma get_and_train_epochs_loop_eq {A V L : Type} (step : ℕ → A → A)
    (vloss : A → V → L) (vs : V) :
    ∀ (n e : ℕ) (ae : A),
      get_and_train_epochs_loop step vloss vs e n ae
        = train_epochs_loop step vloss vs e n ae := by
  intro n
  induction n with
  | zero => intro e ae; rfl
  | succ n ih =>
    intro e ae
    simp only [get_and_train_epochs_loop, train_epochs_loop]
    rw [ih (e + 1) (step e ae)]

/-- C10: with an explicit layer-size list, the same oracles and the same
randomness source, the inlined training of get_and_train_autoencoder
returns exactly the model of the composition create_autoencoder followed
by train_autoencoder. -/
theorem get_and_train_autoencoder_eq_composed {A V L : Type}
    (mkAE : List ℕ → A) (step : ℕ → A → A) (vloss : A → V → L)
    (train_dim : ℕ) (vs : V) (sizes : List ℕ) (epochs : ℕ) :
    get_and_train_autoencoder mkAE step vloss train_dim vs (some sizes) epochs
      = train_autoencoder step vloss vs epochs (create_autoencoder mkAE sizes) := by
  simp only [get_and_train_autoencoder, train_autoencoder, create_autoencoder]
  rw [get_and_train_epochs_loop_eq]
